import Mathlib

/-!
Verification of the NodeMaterialRuntimeHelper subsystem
(src/packages/dev/core/src/Materials/Node/Replay/nodeMaterialRuntimeHelper.ts).

The helper replays a shader generated by a Node Material: when the build
signal of the material fires, it extracts the uniform input blocks into a
ledger, creates a shader material and, on every bind event, walks the
ledger and pushes a value for each entry into the effect.

Scalars are modelled with rational numbers; JavaScript maps keyed by
strings are modelled as insertion-ordered association lists; a thrown
exception is modelled with Except.
-/

namespace NodeMaterialReplay

/-- Modelled from the spec: the NodeMaterialSystemValues enumeration (the file
core/Materials/Node/Enums/nodeMaterialSystemValues.ts is not under src/).
The spec gives the fixed set World, View, Projection, ViewProjection,
WorldView, WorldViewProjection, CameraPosition, FogColor, DeltaTime and
CameraParameters; the constructor outOfRange stands for a numeric value
outside that set, which an external mutation of the ledger can produce
since TypeScript numeric enumerations are open. -/
inductive SystemValueKind where
  | World
  | View
  | Projection
  | ViewProjection
  | WorldView
  | WorldViewProjection
  | CameraPosition
  | FogColor
  | DeltaTime
  | CameraParameters
  | outOfRange (code : Nat)
deriving DecidableEq

/-- Modelled from the spec: the JavaScript values a directValue field of a
ledger entry can hold (the field has type any in the source). The first
four constructors are the class instances the dispatcher handles; vector2
stands for an instance of any other class exposing getClassName, such as
Vector2; num is a raw JavaScript number, which is what an InputBlock
holds for a float uniform and which exposes no getClassName method. -/
inductive JSValue where
  | vector3 (x y z : ℚ)
  | vector4 (x y z w : ℚ)
  | color3 (r g b : ℚ)
  | color4 (r g b a : ℚ)
  | vector2 (x y : ℚ)
  | num (n : ℚ)
deriving DecidableEq

/-- JavaScript truthiness of a value: a number is falsy exactly when it is
zero, every object is truthy. -/
def JSValue.truthy : JSValue → Bool
  | .num n => decide (n ≠ 0)
  | _ => true

/-- Result of calling getClassName() on the value: some name for class
instances, none for a raw number, where the call would raise a TypeError. -/
def JSValue.getClassName : JSValue → Option String
  | .vector3 _ _ _ => some "Vector3"
  | .vector4 _ _ _ _ => some "Vector4"
  | .color3 _ _ _ => some "Color3"
  | .color4 _ _ _ _ => some "Color4"
  | .vector2 _ _ => some "Vector2"
  | .num _ => none

/-- IUniformLedgerEntry of the source: an optional system value type and an
optional direct value. -/
structure IUniformLedgerEntry where
  systemValueType : Option SystemValueKind := none
  directValue : Option JSValue := none
deriving DecidableEq

/-- The uniform ledger, a JavaScript object keyed by uniform name, modelled
as an insertion-ordered association list. -/
abbrev UniformLedger := List (String × IUniformLedgerEntry)

/-- JavaScript keyed assignment: overwriting an existing key keeps its
position, a new key is appended at the end. -/
def ledgerSet (led : UniformLedger) (key : String) (e : IUniformLedgerEntry) : UniformLedger :=
  if led.any (fun p => p.1 = key) then
    led.map (fun p => if p.1 = key then (key, e) else p)
  else
    led ++ [(key, e)]

/-- Modelled from the spec: 2x2 rational matrix contents standing in for the
matrix class of core/Maths/math.vector.ts, which is not under src/. Matrix
multiplication is noncommutative, as in the source. -/
structure MatData where
  a : ℚ
  b : ℚ
  c : ℚ
  d : ℚ
deriving DecidableEq

/-- Matrix product, left operand applied first as in the source call
left.multiplyToRef(right, target). -/
def MatData.mul (m n : MatData) : MatData :=
  ⟨m.a * n.a + m.b * n.c, m.a * n.b + m.b * n.d,
   m.c * n.a + m.d * n.c, m.c * n.b + m.d * n.d⟩

/-- Identity matrix, the initial contents of the two cached matrices. -/
def MatData.identity : MatData := ⟨1, 0, 0, 1⟩

/-- A matrix object: an allocation identity plus mutable contents. The
alloc field identifies the storage, so that writing in place can be told
apart from allocating a new matrix. -/
@[ext]
structure MatrixCell where
  alloc : Nat
  data : MatData
deriving DecidableEq

/-- multiplyToRef of the source: the product of the two operands is written
into the target storage in place, so the allocation identity of the target
is preserved. -/
def multiplyToRef (m n : MatData) (target : MatrixCell) : MatrixCell :=
  { target with data := m.mul n }

/-- Modelled from the spec: the active camera, queried for its near and far
planes (the camera class is not under src/). -/
structure Camera where
  minZ : ℚ
  maxZ : ℚ
deriving DecidableEq

/-- Modelled from the spec: the read-only scene and engine state the
dispatcher queries (scene and engine classes are not under src/). -/
structure Scene where
  viewMatrix : MatData
  projectionMatrix : MatData
  transformMatrix : MatData
  fogColorR : ℚ
  fogColorG : ℚ
  fogColorB : ℚ
  deltaTime : ℚ
  activeCamera : Option Camera
  hasOriginBottomLeft : Bool
deriving DecidableEq

/-- Modelled from the spec: the drawn object, queried only for its world
matrix. -/
structure AbstractMesh where
  worldMatrix : MatData
deriving DecidableEq

/-- One call made on the effect (the shader uniform interface) by the bind
handler. setColor4 carries the three channels and the alpha passed as the
separate last argument in the source. bindEyePosition records the
delegation to the camera position binding helper of the scene. -/
inductive PushCall where
  | setMatrix (key : String) (m : MatData)
  | setColor3 (key : String) (r g b : ℚ)
  | setFloat (key : String) (v : ℚ)
  | setFloat4 (key : String) (x y z w : ℚ)
  | setVector3 (key : String) (x y z : ℚ)
  | setVector4 (key : String) (x y z w : ℚ)
  | setColor4 (key : String) (r g b a : ℚ)
  | bindEyePosition (key : String)
deriving DecidableEq

/-- The two scratch matrices of the helper, allocated once at construction:
cachedWorldViewMatrix and cachedWorldViewProjectionMatrix. -/
@[ext]
structure DerivedValueCache where
  worldView : MatrixCell
  worldViewProjection : MatrixCell
deriving DecidableEq

/-- Fresh cache as built by the field initializers of the helper: two
identity matrices with distinct allocation identities. -/
def freshCache (base : Nat) : DerivedValueCache :=
  { worldView := { alloc := base, data := MatData.identity }
    worldViewProjection := { alloc := base + 1, data := MatData.identity } }

/-- The switch on entry.systemValueType inside the bind handler: the calls
pushed for one system value entry, together with the cache after the entry
(WorldView and WorldViewProjection overwrite their scratch matrix in place
and push that storage). The switch has no default clause, so a kind outside
the enumeration pushes nothing. -/
def resolveSystemValue (sc : Scene) (me : AbstractMesh) (c : DerivedValueCache)
    (key : String) (kind : SystemValueKind) : List PushCall × DerivedValueCache :=
  match kind with
  | .World => ([.setMatrix key me.worldMatrix], c)
  | .WorldView =>
      let cell := multiplyToRef me.worldMatrix sc.viewMatrix c.worldView
      ([.setMatrix key cell.data], { c with worldView := cell })
  | .WorldViewProjection =>
      let cell := multiplyToRef me.worldMatrix sc.transformMatrix c.worldViewProjection
      ([.setMatrix key cell.data], { c with worldViewProjection := cell })
  | .View => ([.setMatrix key sc.viewMatrix], c)
  | .Projection => ([.setMatrix key sc.projectionMatrix], c)
  | .ViewProjection => ([.setMatrix key sc.transformMatrix], c)
  | .CameraPosition => ([.bindEyePosition key], c)
  | .FogColor => ([.setColor3 key sc.fogColorR sc.fogColorG sc.fogColorB], c)
  | .DeltaTime => ([.setFloat key (sc.deltaTime / 1000)], c)
  | .CameraParameters =>
      match sc.activeCamera with
      | some cam =>
          ([.setFloat4 key (if sc.hasOriginBottomLeft then -1 else 1)
              cam.minZ cam.maxZ (1 / cam.maxZ)], c)
      | none => ([], c)
  | .outOfRange _ => ([], c)

/-- The switch on value.getClassName() in the direct value branch: each of
the four handled class names pushes the matching call, any other class name
falls through and pushes nothing. -/
def directValueSwitch (key : String) (v : JSValue) : List PushCall :=
  match v with
  | .vector3 x y z => [.setVector3 key x y z]
  | .vector4 x y z w => [.setVector4 key x y z w]
  | .color3 r g b => [.setColor3 key r g b]
  | .color4 r g b a => [.setColor4 key r g b a]
  | .vector2 _ _ => []
  | .num _ => []

/-- The direct value branch of the bind handler: a missing or falsy value is
skipped; a truthy value without a getClassName method makes the call
value.getClassName() raise a TypeError, modelled as an error. -/
def resolveDirectValue (key : String) (dv : Option JSValue) : Except Unit (List PushCall) :=
  match dv with
  | none => .ok []
  | some v =>
    if v.truthy then
      match v.getClassName with
      | none => .error ()
      | some _ => .ok (directValueSwitch key v)
    else
      .ok []

/-- Processing of one ledger entry by the bind handler: the system value
branch is taken whenever systemValueType is set, otherwise the direct value
branch runs. -/
def resolveEntry (sc : Scene) (me : AbstractMesh) (c : DerivedValueCache)
    (key : String) (e : IUniformLedgerEntry) :
    Except Unit (List PushCall × DerivedValueCache) :=
  match e.systemValueType with
  | some kind => .ok (resolveSystemValue sc me c key kind)
  | none => (resolveDirectValue key e.directValue).map (fun p => (p, c))

/-- The full bind handler loop: every ledger entry in insertion order, the
cache threaded through, an exception aborting the loop. -/
def dispatchLedger (led : UniformLedger) (sc : Scene) (me : AbstractMesh)
    (c : DerivedValueCache) : Except Unit (List PushCall × DerivedValueCache) :=
  match led with
  | [] => .ok ([], c)
  | (key, e) :: rest =>
    match resolveEntry sc me c key e with
    | .error err => .error err
    | .ok (pushes, c₁) =>
      match dispatchLedger rest sc me c₁ with
      | .error err => .error err
      | .ok (restPushes, c₂) => .ok (pushes ++ restPushes, c₂)

/-- One uniform declaration consumed from the compiled graph: the fields of
an InputBlock the build handler reads. -/
structure InputBlock where
  isUniform : Bool
  associatedVariableName : String
  isSystemValue : Bool
  systemValue : Option SystemValueKind
  value : Option JSValue
deriving DecidableEq

/-- JavaScript truthiness of a possibly absent value. -/
def optTruthy : Option JSValue → Bool
  | none => false
  | some v => v.truthy

/-- The ledger entry the build handler creates for one uniform input block:
a system value block stores its system value kind, otherwise a truthy value
is stored as the direct value and a falsy or absent value leaves the entry
inert. -/
def entryOfBlock (b : InputBlock) : IUniformLedgerEntry :=
  if b.isSystemValue then
    { systemValueType := b.systemValue, directValue := none }
  else if optTruthy b.value then
    { systemValueType := none, directValue := b.value }
  else
    { systemValueType := none, directValue := none }

/-- The ledger construction loop of the build handler, starting from the
given ledger contents: every uniform input block is assigned into the
ledger under its associated variable name. -/
def buildLedgerInto (led : UniformLedger) (blocks : List InputBlock) : UniformLedger :=
  blocks.foldl
    (fun acc b =>
      if b.isUniform then ledgerSet acc b.associatedVariableName (entryOfBlock b) else acc)
    led

/-- Ledger built by the build handler from an initially empty ledger. -/
def buildLedger (blocks : List InputBlock) : UniformLedger :=
  buildLedgerInto [] blocks

/-- The uniforms array the build handler accumulates and passes to the
shader material constructor. -/
def uniformNames (blocks : List InputBlock) : List String :=
  (blocks.filter (fun b => b.isUniform)).map (fun b => b.associatedVariableName)

/-- Expected shape of the ledger: one pair per uniform declaration, in
order, each entry built from its declaration. -/
def uniformPairs (blocks : List InputBlock) : List (String × IUniformLedgerEntry) :=
  (blocks.filter (fun b => b.isUniform)).map
    (fun b => (b.associatedVariableName, entryOfBlock b))

/-- The shader material the build handler creates, reduced to the data the
claims observe: the uniform name list it was constructed with. -/
structure ShaderMaterialState where
  uniforms : List String
deriving DecidableEq

/-- Observable state of one helper instance: whether the addOnce build
handler is still registered on the build observable of the material, the
ledger, the shader material handle, the number of observers on the shader
material created observable, and the two scratch matrices. -/
structure HelperState where
  buildHandlerPending : Bool
  uniformLedger : UniformLedger
  shaderMaterial : Option ShaderMaterialState
  createdObservers : Nat
  cache : DerivedValueCache
deriving DecidableEq

/-- Constructor of the helper: it registers the addOnce build handler,
leaves the ledger empty and the shader material absent, and allocates the
two scratch matrices. -/
def mkHelper (base : Nat) : HelperState :=
  { buildHandlerPending := true
    uniformLedger := []
    shaderMaterial := none
    createdObservers := 0
    cache := freshCache base }

/-- The build observable of the material fires: if the addOnce handler is
still registered it runs once, filling the ledger from the input blocks and
creating the shader material; otherwise nothing happens. -/
def fireBuild (blocks : List InputBlock) (s : HelperState) : HelperState :=
  if s.buildHandlerPending then
    { s with
      buildHandlerPending := false
      uniformLedger := buildLedgerInto s.uniformLedger blocks
      shaderMaterial := some { uniforms := uniformNames blocks } }
  else s

/-- dispose of the source: the shader material, if any, is disposed and the
handle nulled, and the shader material created observable is cleared. The
addOnce handler registered on the build observable of the material is not
removed, exactly as in the source. -/
def dispose (s : HelperState) : HelperState :=
  { s with shaderMaterial := none, createdObservers := 0 }

/-- The cache update performed by one entry: WorldView and
WorldViewProjection overwrite their scratch matrix in place, every other
entry leaves the cache unchanged. -/
def entryCache (sc : Scene) (me : AbstractMesh) (e : IUniformLedgerEntry)
    (c : DerivedValueCache) : DerivedValueCache :=
  match e.systemValueType with
  | some .WorldView =>
      { c with worldView := multiplyToRef me.worldMatrix sc.viewMatrix c.worldView }
  | some .WorldViewProjection =>
      { c with worldViewProjection :=
          multiplyToRef me.worldMatrix sc.transformMatrix c.worldViewProjection }
  | _ => c

/-- The cache left behind by a full dispatch, expressed as the fold of the
per-entry updates. -/
def cacheAfter (sc : Scene) (me : AbstractMesh) :
    UniformLedger → DerivedValueCache → DerivedValueCache
  | [], c => c
  | (_, e) :: rest, c => cacheAfter sc me rest (entryCache sc me e c)

/-- Whether the ledger holds a WorldView entry, so whether a dispatch
rewrites the world view scratch matrix. -/
def touchesWorldView (l : UniformLedger) : Bool :=
  l.any (fun q => q.2.systemValueType = some SystemValueKind.WorldView)

/-- Whether the ledger holds a WorldViewProjection entry, so whether a
dispatch rewrites the world view projection scratch matrix. -/
def touchesWorldViewProjection (l : UniformLedger) : Bool :=
  l.any (fun q => q.2.systemValueType = some SystemValueKind.WorldViewProjection)

/-! Sample inputs used by concrete evaluations. -/

/-- Sample scene: identity view, combined transform with distinct entries,
an active camera with near plane 1/10 and far plane 100, engine origin at
the bottom left. -/
def sampleScene : Scene :=
  { viewMatrix := MatData.identity
    projectionMatrix := MatData.identity
    transformMatrix := ⟨5, 6, 7, 8⟩
    fogColorR := 0
    fogColorG := 0
    fogColorB := 0
    deltaTime := 16
    activeCamera := some ⟨1/10, 100⟩
    hasOriginBottomLeft := true }

/-- Sample mesh with identity world matrix. -/
def sampleMesh : AbstractMesh := ⟨MatData.identity⟩

/-- Ledger entry asking for the combined world view projection matrix. -/
def wvpEntry : IUniformLedgerEntry :=
  { systemValueType := some .WorldViewProjection, directValue := none }

/-- Ledger entry with neither field populated. -/
def inertEntry : IUniformLedgerEntry :=
  { systemValueType := none, directValue := none }

/-- Ledger entry asking for the view matrix. -/
def viewEntry : IUniformLedgerEntry :=
  { systemValueType := some .View, directValue := none }

/-- Sample uniform declarations: a system value block, a color block, a
float block whose value zero is falsy, and a varying that is not a
uniform. -/
def sampleBlocks : List InputBlock :=
  [ { isUniform := true, associatedVariableName := "u_world", isSystemValue := true,
      systemValue := some .World, value := none },
    { isUniform := true, associatedVariableName := "u_tint", isSystemValue := false,
      systemValue := none, value := some (.color3 1 0 0) },
    { isUniform := true, associatedVariableName := "u_gap", isSystemValue := false,
      systemValue := none, value := some (.num 0) },
    { isUniform := false, associatedVariableName := "v_pos", isSystemValue := false,
      systemValue := none, value := none } ]

/-- Sample ledger mixing an out of range system value kind, a payload of an
unhandled class and a handled color payload. -/
def mixedLedger : UniformLedger :=
  [("a", { systemValueType := some (.outOfRange 99), directValue := none }),
   ("b", { systemValueType := none, directValue := some (.vector2 1 2) }),
   ("c", { systemValueType := none, directValue := some (.color3 1 0 0) })]

/-- Pushes of a dispatch of the single world view projection entry over the
sample scene. -/
def pWvp : List PushCall := [.setMatrix "wvp" ⟨5, 6, 7, 8⟩]

/-- Cache left by a dispatch resolving WorldViewProjection over the sample
scene starting from freshCache 0. -/
def cAfterWvp : DerivedValueCache :=
  { worldView := { alloc := 0, data := MatData.identity }
    worldViewProjection := { alloc := 1, data := ⟨5, 6, 7, 8⟩ } }

/-- Ledger with a world view projection entry and a view entry. -/
def pairLedger : UniformLedger := [("wvp", wvpEntry), ("view", viewEntry)]

/-- Pushes of a dispatch of pairLedger over the sample scene. -/
def pPair : List PushCall :=
  [.setMatrix "wvp" ⟨5, 6, 7, 8⟩, .setMatrix "view" MatData.identity]

/-- Whether the direct value payload of an entry, if any, is an object
exposing a class name tag: a raw number is the payload shape for which the
getClassName call of the dispatcher raises. -/
def payloadHasClassName (e : IUniformLedgerEntry) : Bool :=
  match e.directValue with
  | none => true
  | some v => v.getClassName.isSome

/-- Modelled from the spec: resolution of one entry where an unresolvable
entry is always skipped, never fatal. -/
def resolveEntrySkip (sc : Scene) (me : AbstractMesh) (c : DerivedValueCache)
    (k : String) (e : IUniformLedgerEntry) : List PushCall × DerivedValueCache :=
  match resolveEntry sc me c k e with
  | .ok r => r
  | .error _ => ([], c)

/-- Modelled from the spec: the dispatcher that visits every ledger entry
and skips an unresolvable entry without aborting the processing of the
remaining entries. -/
def dispatchSkipAll :
    UniformLedger → Scene → AbstractMesh → DerivedValueCache →
      List PushCall × DerivedValueCache
  | [], _, _, c => ([], c)
  | (k, e) :: rest, sc, me, c =>
      let r := resolveEntrySkip sc me c k e
      let rr := dispatchSkipAll rest sc me r.2
      (r.1 ++ rr.1, rr.2)

/-- Unfolding of the dispatch loop on a head entry that resolves without an
exception. -/
lemma dispatchLedger_cons_ok {sc : Scene} {me : AbstractMesh} {c c₁ : DerivedValueCache}
    {k : String} {e : IUniformLedgerEntry} {p : List PushCall} (rest : UniformLedger)
    (h : resolveEntry sc me c k e = .ok (p, c₁)) :
    dispatchLedger ((k, e) :: rest) sc me c =
      match dispatchLedger rest sc me c₁ with
      | .error err => .error err
      | .ok (q, c₂) => .ok (p ++ q, c₂) := by
  simp only [dispatchLedger, h]

/-- Unfolding of the dispatch loop on a head entry whose resolution raises
an exception: the loop aborts. -/
lemma dispatchLedger_cons_error {sc : Scene} {me : AbstractMesh} {c : DerivedValueCache}
    {k : String} {e : IUniformLedgerEntry} {err : Unit} (rest : UniformLedger)
    (h : resolveEntry sc me c k e = .error err) :
    dispatchLedger ((k, e) :: rest) sc me c = .error err := by
  simp only [dispatchLedger, h]

/-- The pushes of one entry resolution, and whether it raises, do not
depend on the incoming cache contents: only the cache component of the
result does. -/
lemma resolveEntry_fst_indep (sc : Scene) (me : AbstractMesh) (c c' : DerivedValueCache)
    (k : String) (e : IUniformLedgerEntry) :
    (resolveEntry sc me c k e).map Prod.fst = (resolveEntry sc me c' k e).map Prod.fst := by
  cases he : e.systemValueType with
  | none =>
      simp only [resolveEntry, he]
      cases resolveDirectValue k e.directValue <;> rfl
  | some kind =>
      simp only [resolveEntry, he]
      rcases hcam : sc.activeCamera with _ | cam <;>
        cases kind <;>
          simp [resolveSystemValue, multiplyToRef, hcam, Except.map]

/-- A successful entry resolution updates the cache exactly as entryCache
describes. -/
lemma resolveEntry_ok_snd {sc : Scene} {me : AbstractMesh} {c : DerivedValueCache}
    {k : String} {e : IUniformLedgerEntry} {p : List PushCall} {c₁ : DerivedValueCache}
    (h : resolveEntry sc me c k e = .ok (p, c₁)) : c₁ = entryCache sc me e c := by
  cases he : e.systemValueType with
  | none =>
      simp only [resolveEntry, he] at h
      cases hdv : resolveDirectValue k e.directValue with
      | error err => simp [hdv, Except.map] at h
      | ok q =>
          simp only [hdv, Except.map, Except.ok.injEq, Prod.mk.injEq] at h
          simp [entryCache, he, ← h.2]
  | some kind =>
      simp only [resolveEntry, he, Except.ok.injEq] at h
      rcases hcam : sc.activeCamera with _ | cam <;>
        cases kind <;>
          simp_all [entryCache, resolveSystemValue, multiplyToRef]

/-- A successful dispatch leaves exactly the cache cacheAfter describes. -/
lemma dispatchLedger_ok_snd {l : UniformLedger} {sc : Scene} {me : AbstractMesh}
    {c : DerivedValueCache} {p : List PushCall} {d : DerivedValueCache}
    (h : dispatchLedger l sc me c = .ok (p, d)) : d = cacheAfter sc me l c := by
  induction l generalizing c p d with
  | nil =>
      simp only [dispatchLedger, Except.ok.injEq, Prod.mk.injEq] at h
      simp [cacheAfter, ← h.2]
  | cons hd tl ih =>
      obtain ⟨k₀, e₀⟩ := hd
      cases h₀ : resolveEntry sc me c k₀ e₀ with
      | error err => rw [dispatchLedger_cons_error _ h₀] at h; cases h
      | ok r =>
          obtain ⟨p₀, c₀⟩ := r
          rw [dispatchLedger_cons_ok _ h₀] at h
          cases h₁ : dispatchLedger tl sc me c₀ with
          | error err => simp only [h₁] at h; cases h
          | ok r₁ =>
              obtain ⟨q, c₂⟩ := r₁
              simp only [h₁, Except.ok.injEq, Prod.mk.injEq] at h
              have : c₂ = cacheAfter sc me tl c₀ := ih h₁
              simp only [cacheAfter, ← resolveEntry_ok_snd h₀, ← h.2, this]

/-- Head unfolding of touchesWorldView. -/
lemma touchesWorldView_cons (k : String) (e : IUniformLedgerEntry) (tl : UniformLedger) :
    touchesWorldView ((k, e) :: tl) =
      (decide (e.systemValueType = some SystemValueKind.WorldView) || touchesWorldView tl) := by
  simp [touchesWorldView, List.any_cons]

/-- Head unfolding of touchesWorldViewProjection. -/
lemma touchesWorldViewProjection_cons (k : String) (e : IUniformLedgerEntry)
    (tl : UniformLedger) :
    touchesWorldViewProjection ((k, e) :: tl) =
      (decide (e.systemValueType = some SystemValueKind.WorldViewProjection) ||
        touchesWorldViewProjection tl) := by
  simp [touchesWorldViewProjection, List.any_cons]

/-- World view cell of the cache after one entry. -/
lemma entryCache_worldView (sc : Scene) (me : AbstractMesh) (e : IUniformLedgerEntry)
    (c : DerivedValueCache) :
    (entryCache sc me e c).worldView =
      if e.systemValueType = some SystemValueKind.WorldView
      then ⟨c.worldView.alloc, me.worldMatrix.mul sc.viewMatrix⟩
      else c.worldView := by
  cases he : e.systemValueType with
  | none => simp [entryCache, he]
  | some kind => cases kind <;> simp [entryCache, he, multiplyToRef]

/-- World view projection cell of the cache after one entry. -/
lemma entryCache_worldViewProjection (sc : Scene) (me : AbstractMesh)
    (e : IUniformLedgerEntry) (c : DerivedValueCache) :
    (entryCache sc me e c).worldViewProjection =
      if e.systemValueType = some SystemValueKind.WorldViewProjection
      then ⟨c.worldViewProjection.alloc, me.worldMatrix.mul sc.transformMatrix⟩
      else c.worldViewProjection := by
  cases he : e.systemValueType with
  | none => simp [entryCache, he]
  | some kind => cases kind <;> simp [entryCache, he, multiplyToRef]

/-- Closed form of the world view cell after a dispatch: the storage
identity is always preserved, the contents are overwritten exactly when
some entry asks for WorldView. -/
lemma cacheAfter_worldView (sc : Scene) (me : AbstractMesh) (l : UniformLedger) :
    ∀ c : DerivedValueCache,
    (cacheAfter sc me l c).worldView =
      if touchesWorldView l
      then ⟨c.worldView.alloc, me.worldMatrix.mul sc.viewMatrix⟩
      else c.worldView := by
  induction l with
  | nil => intro c; simp [cacheAfter, touchesWorldView]
  | cons hd tl ih =>
      intro c
      obtain ⟨k₀, e₀⟩ := hd
      simp only [cacheAfter]
      rw [ih (entryCache sc me e₀ c), entryCache_worldView, touchesWorldView_cons]
      by_cases h1 : e₀.systemValueType = some SystemValueKind.WorldView <;>
        by_cases h2 : touchesWorldView tl <;>
          simp [h1, h2]

/-- Closed form of the world view projection cell after a dispatch. -/
lemma cacheAfter_worldViewProjection (sc : Scene) (me : AbstractMesh) (l : UniformLedger) :
    ∀ c : DerivedValueCache,
    (cacheAfter sc me l c).worldViewProjection =
      if touchesWorldViewProjection l
      then ⟨c.worldViewProjection.alloc, me.worldMatrix.mul sc.transformMatrix⟩
      else c.worldViewProjection := by
  induction l with
  | nil => intro c; simp [cacheAfter, touchesWorldViewProjection]
  | cons hd tl ih =>
      intro c
      obtain ⟨k₀, e₀⟩ := hd
      simp only [cacheAfter]
      rw [ih (entryCache sc me e₀ c), entryCache_worldViewProjection,
        touchesWorldViewProjection_cons]
      by_cases h1 : e₀.systemValueType = some SystemValueKind.WorldViewProjection <;>
        by_cases h2 : touchesWorldViewProjection tl <;>
          simp [h1, h2]

/-- Running the cache update of a dispatch twice is the same as running it
once: each scratch matrix is either left alone or overwritten with the
same product both times. -/
lemma cacheAfter_idem (sc : Scene) (me : AbstractMesh) (l : UniformLedger)
    (c : DerivedValueCache) :
    cacheAfter sc me l (cacheAfter sc me l c) = cacheAfter sc me l c := by
  apply DerivedValueCache.ext
  · rw [cacheAfter_worldView, cacheAfter_worldView]
    by_cases h : touchesWorldView l <;> simp [h]
  · rw [cacheAfter_worldViewProjection, cacheAfter_worldViewProjection]
    by_cases h : touchesWorldViewProjection l <;> simp [h]

/-- The pushes of a full dispatch, and whether it raises, do not depend on
the incoming cache contents. -/
lemma dispatchLedger_fst_indep (sc : Scene) (me : AbstractMesh) (l : UniformLedger) :
    ∀ c c' : DerivedValueCache,
    (dispatchLedger l sc me c).map Prod.fst = (dispatchLedger l sc me c').map Prod.fst := by
  induction l with
  | nil => intro c c'; rfl
  | cons hd tl ih =>
      intro c c'
      obtain ⟨k₀, e₀⟩ := hd
      have h0 := resolveEntry_fst_indep sc me c c' k₀ e₀
      cases h1 : resolveEntry sc me c k₀ e₀ with
      | error err =>
          cases err
          cases h2 : resolveEntry sc me c' k₀ e₀ with
          | error err' =>
              cases err'
              rw [dispatchLedger_cons_error _ h1, dispatchLedger_cons_error _ h2]
          | ok r => rw [h1, h2] at h0; simp [Except.map] at h0
      | ok r =>
          obtain ⟨p₀, c₀⟩ := r
          cases h2 : resolveEntry sc me c' k₀ e₀ with
          | error err => rw [h1, h2] at h0; cases err; simp [Except.map] at h0
          | ok r' =>
              obtain ⟨p₀', c₀'⟩ := r'
              rw [h1, h2] at h0
              simp only [Except.map, Except.ok.injEq] at h0
              rw [dispatchLedger_cons_ok _ h1, dispatchLedger_cons_ok _ h2]
              have h3 := ih c₀ c₀'
              cases h4 : dispatchLedger tl sc me c₀ with
              | error err =>
                  cases err
                  cases h5 : dispatchLedger tl sc me c₀' with
                  | error err' => cases err'; simp
                  | ok rr => rw [h4, h5] at h3; simp [Except.map] at h3
              | ok rr =>
                  obtain ⟨q, c₂⟩ := rr
                  cases h5 : dispatchLedger tl sc me c₀' with
                  | error err => cases err; rw [h4, h5] at h3; simp [Except.map] at h3
                  | ok rr' =>
                      obtain ⟨q', c₂'⟩ := rr'
                      rw [h4, h5] at h3
                      simp only [Except.map, Except.ok.injEq] at h3
                      simp [Except.map, h0, h3]

/-- An entry whose payload carries a class name tag always resolves without
an exception. -/
lemma resolveEntry_ok_of_className {sc : Scene} {me : AbstractMesh} {c : DerivedValueCache}
    {k : String} {e : IUniformLedgerEntry} (h : payloadHasClassName e = true) :
    resolveEntry sc me c k e = .ok (resolveEntrySkip sc me c k e) := by
  cases he : e.systemValueType with
  | some kind =>
      simp [resolveEntry, resolveEntrySkip, he]
  | none =>
      cases hv : e.directValue with
      | none =>
          simp [resolveEntry, resolveEntrySkip, resolveDirectValue, he, hv, Except.map]
      | some v =>
          simp only [payloadHasClassName, hv] at h
          by_cases ht : v.truthy = true
          · cases hg : v.getClassName with
            | none => rw [hg] at h; cases h
            | some cn =>
                simp [resolveEntry, resolveEntrySkip, resolveDirectValue, he, hv, ht, hg,
                  Except.map]
          · simp [resolveEntry, resolveEntrySkip, resolveDirectValue, he, hv, ht, Except.map]

/-- C4 counterexample: the claim says a dispatch call never throws whatever
the ledger holds, including a direct value payload of an unrecognized
variant. A ledger whose entry holds the raw number five as direct value
refutes it: the number is truthy, so the handler calls
value.getClassName(), and a number has no such method, so the call raises
a TypeError and the dispatch aborts. -/
theorem dispatch_throws_on_number_payload :
    dispatchLedger [("u", { systemValueType := none, directValue := some (.num 5) })]
        sampleScene sampleMesh (freshCache 0) = .error () := by
  simp [dispatchLedger, resolveEntry, resolveDirectValue, JSValue.truthy,
    JSValue.getClassName, Except.map]

/-- C4 amended: for every ledger whose direct value payloads are objects
exposing a class name tag, a single dispatch call never throws and visits
every ledger entry: it returns exactly the result of the skipping
dispatcher, which processes each entry in turn and turns an unresolvable
entry, such as an unhandled system value kind or an unrecognized class
name, into a silent skip that never aborts the remaining entries. -/
theorem dispatch_skips_unresolvable (l : UniformLedger) (sc : Scene) (me : AbstractMesh)
    (c : DerivedValueCache)
    (h : ∀ q ∈ l, payloadHasClassName q.2 = true) :
    dispatchLedger l sc me c = .ok (dispatchSkipAll l sc me c) := by
  induction l generalizing c with
  | nil => rfl
  | cons hd tl ih =>
      obtain ⟨k₀, e₀⟩ := hd
      have hr := @resolveEntry_ok_of_className sc me c k₀ e₀ (h (k₀, e₀) (by simp))
      rcases hsk : resolveEntrySkip sc me c k₀ e₀ with ⟨p₀, c₀⟩
      rw [hsk] at hr
      have htl := ih c₀ (fun q hq => h q (List.mem_cons_of_mem _ hq))
      rw [dispatchLedger_cons_ok _ hr, htl]
      rcases hsk2 : dispatchSkipAll tl sc me c₀ with ⟨q, c₂⟩
      simp [dispatchSkipAll, hsk, hsk2]

/-! Claim theorems. -/

/-- C1: the claim states that disposing the helper before the build signal
fires and then firing the signal leaves the shader material handle absent.
The code does the opposite: dispose does not remove the addOnce handler
registered on the build observable of the material, so the late signal
still runs the handler, which creates a shader material and stores it in
the helper. This theorem evaluates the model at that failing input. -/
theorem disposeThenBuild_creates_shader :
    ((fireBuild [] (dispose (mkHelper 0))).shaderMaterial).isSome = true := rfl

/-- C3: a CameraParameters entry pushes exactly the 4-tuple of the origin
sign (negative one when the engine origin is bottom left, positive one
otherwise), the near plane, the far plane and the reciprocal of the far
plane of the active camera; with no active camera, nothing is pushed for
the entry and the dispatch still succeeds. -/
theorem cameraParameters_resolution (sc : Scene) (me : AbstractMesh)
    (c : DerivedValueCache) (key : String) :
    dispatchLedger [(key, { systemValueType := some .CameraParameters, directValue := none })]
        sc me c =
      .ok (match sc.activeCamera with
        | some cam =>
            [.setFloat4 key (if sc.hasOriginBottomLeft then -1 else 1)
              cam.minZ cam.maxZ (1 / cam.maxZ)]
        | none => [], c) := by
  rcases hc : sc.activeCamera with _ | cam <;>
    simp [dispatchLedger, resolveEntry, resolveSystemValue, hc]

/-- C6: an entry with neither a system value kind nor a direct value set
resolves to no push call at all, and inserting such an entry anywhere in a
ledger leaves the dispatch result unchanged: the entry is a no-op and the
call completes exactly as without it. -/
theorem inert_entry_never_pushes (sc : Scene) (me : AbstractMesh)
    (c : DerivedValueCache) (key : String) (pre post : UniformLedger) :
    resolveEntry sc me c key inertEntry = .ok ([], c) ∧
    dispatchLedger (pre ++ (key, inertEntry) :: post) sc me c =
      dispatchLedger (pre ++ post) sc me c := by
  constructor
  · rfl
  · induction pre generalizing c with
    | nil =>
        have h1 : resolveEntry sc me c key inertEntry = .ok ([], c) := rfl
        simp only [List.nil_append]
        rw [dispatchLedger_cons_ok post h1]
        cases h2 : dispatchLedger post sc me c with
        | error err => rfl
        | ok r => obtain ⟨q, c₂⟩ := r; simp
    | cons hd tl ih =>
        obtain ⟨k₀, e₀⟩ := hd
        simp only [List.cons_append]
        cases h₀ : resolveEntry sc me c k₀ e₀ with
        | error err =>
            rw [dispatchLedger_cons_error _ h₀, dispatchLedger_cons_error _ h₀]
        | ok r =>
            obtain ⟨p₀, c₀⟩ := r
            rw [dispatchLedger_cons_ok _ h₀, dispatchLedger_cons_ok _ h₀, ih c₀]

/-- C7: dispose is idempotent: disposing twice is the same state change as
disposing once, after any dispose the helper holds no shader material
handle, and disposing a freshly constructed helper whose shader material
was never created is a no-op on the handle as well. The operation is a
total function, so no error can be raised. -/
theorem dispose_idempotent (s : HelperState) :
    dispose (dispose s) = dispose s ∧
    (dispose s).shaderMaterial = none ∧
    (dispose (mkHelper 0)).shaderMaterial = none :=
  ⟨rfl, rfl, rfl⟩

/-- C9: when a ledger entry carries both a system value kind and a direct
value, the dispatcher takes the system value branch: the resolution is the
same as with the direct value removed, namely the system value resolution,
so the direct value payload is ignored. -/
theorem systemValue_branch_ignores_direct (sc : Scene) (me : AbstractMesh)
    (c : DerivedValueCache) (key : String) (kind : SystemValueKind) (v : JSValue) :
    resolveEntry sc me c key { systemValueType := some kind, directValue := some v } =
      resolveEntry sc me c key { systemValueType := some kind, directValue := none } ∧
    resolveEntry sc me c key { systemValueType := some kind, directValue := some v } =
      .ok (resolveSystemValue sc me c key kind) :=
  ⟨rfl, rfl⟩

/-- Assigning a key that is not present appends the pair at the end. -/
lemma ledgerSet_notMem {led : UniformLedger} {key : String}
    (h : ∀ q ∈ led, q.1 ≠ key) (e : IUniformLedgerEntry) :
    ledgerSet led key e = led ++ [(key, e)] := by
  unfold ledgerSet
  have hneg : ¬ ((led.any fun q => q.1 = key) = true) := by
    simp only [List.any_eq_true, decide_eq_true_eq, not_exists]
    intro q
    intro hq
    exact absurd hq.2 (h q hq.1)
  rw [if_neg hneg]

/-- Filling a ledger whose keys avoid every declared uniform name appends
exactly one pair per uniform declaration, in declaration order. -/
lemma buildLedgerInto_disjoint (blocks : List InputBlock) : ∀ led : UniformLedger,
    (∀ q ∈ led, q.1 ∉ uniformNames blocks) → (uniformNames blocks).Nodup →
    buildLedgerInto led blocks = led ++ uniformPairs blocks := by
  induction blocks with
  | nil =>
      intro led _ _
      simp [buildLedgerInto, uniformPairs]
  | cons b bs ih =>
      intro led hd hn
      by_cases hu : b.isUniform = true
      · have hnames : uniformNames (b :: bs) =
            b.associatedVariableName :: uniformNames bs := by
          simp [uniformNames, hu]
        rw [hnames] at hd hn
        rw [List.nodup_cons] at hn
        have step : buildLedgerInto led (b :: bs) =
            buildLedgerInto (ledgerSet led b.associatedVariableName (entryOfBlock b)) bs := by
          simp [buildLedgerInto, hu]
        have hd1 : ∀ q ∈ led, q.1 ≠ b.associatedVariableName := by
          intro q hq
          have := hd q hq
          simp only [List.mem_cons, not_or] at this
          exact this.1
        rw [step, ledgerSet_notMem hd1]
        have hd2 : ∀ q ∈ led ++ [(b.associatedVariableName, entryOfBlock b)],
            q.1 ∉ uniformNames bs := by
          intro q hq
          rcases List.mem_append.mp hq with hq1 | hq2
          · have := hd q hq1
            simp only [List.mem_cons, not_or] at this
            exact this.2
          · simp only [List.mem_singleton] at hq2
            rw [hq2]
            exact hn.1
        rw [ih _ hd2 hn.2]
        have hpairs : uniformPairs (b :: bs) =
            (b.associatedVariableName, entryOfBlock b) :: uniformPairs bs := by
          simp [uniformPairs, hu]
        rw [hpairs, List.append_assoc]
        rfl
      · have hnames : uniformNames (b :: bs) = uniformNames bs := by
          simp [uniformNames, hu]
        rw [hnames] at hd hn
        have step : buildLedgerInto led (b :: bs) = buildLedgerInto led bs := by
          simp [buildLedgerInto, hu]
        have hpairs : uniformPairs (b :: bs) = uniformPairs bs := by
          simp [uniformPairs, hu]
        rw [step, hpairs, ih led hd hn]

/-- C2: when the declared uniform names are distinct, as the data model of
the spec requires, the ledger built by the build handler has exactly the
declared uniform names as keys, no extra and no missing one, and maps each
name to the entry its declaration dictates: the system value kind for a
system value declaration, the declared static value for a truthy static
value, an inert entry otherwise. -/
theorem ledger_completeness (blocks : List InputBlock)
    (h : (uniformNames blocks).Nodup) :
    (buildLedger blocks).map Prod.fst = uniformNames blocks ∧
    buildLedger blocks = uniformPairs blocks := by
  have hmain : buildLedger blocks = uniformPairs blocks := by
    have := buildLedgerInto_disjoint blocks [] (by simp) h
    simpa [buildLedger] using this
  refine ⟨?_, hmain⟩
  rw [hmain]
  simp [uniformPairs, uniformNames, List.map_map]

/-- Witness for C2 at the sample declarations: the name distinctness
hypothesis holds there and the ledger equals the declaration list mapped to
entries. -/
theorem ledger_completeness_witness :
    (uniformNames sampleBlocks).Nodup ∧
    ((buildLedger sampleBlocks).map Prod.fst = uniformNames sampleBlocks ∧
      buildLedger sampleBlocks = uniformPairs sampleBlocks) :=
  ⟨by decide, ledger_completeness sampleBlocks (by decide)⟩

/-- Witness for the amended C4 at the mixed sample ledger: every payload
there carries a class name tag, and the dispatch succeeds with the
skipping dispatcher result. -/
theorem dispatch_skips_unresolvable_witness :
    (∀ q ∈ mixedLedger, payloadHasClassName q.2 = true) ∧
    dispatchLedger mixedLedger sampleScene sampleMesh (freshCache 0) =
      .ok (dispatchSkipAll mixedLedger sampleScene sampleMesh (freshCache 0)) :=
  ⟨by decide,
    dispatch_skips_unresolvable mixedLedger sampleScene sampleMesh (freshCache 0) (by decide)⟩

/-- C5: across two consecutive dispatch calls that resolve a
WorldViewProjection entry, the scratch matrix written to keeps the storage
identity it had before both calls, so it is the storage allocated at
helper construction and no new matrix is allocated on the bind path, and
after each call its contents equal the world matrix of the object
multiplied by the combined view projection transform of the scene. -/
theorem wvp_cache_reuse (l : UniformLedger) (sc : Scene) (me : AbstractMesh)
    (c : DerivedValueCache) (key : String) (e : IUniformLedgerEntry)
    (hmem : (key, e) ∈ l)
    (hk : e.systemValueType = some SystemValueKind.WorldViewProjection)
    (p₁ : List PushCall) (c₁ : DerivedValueCache)
    (p₂ : List PushCall) (c₂ : DerivedValueCache)
    (h₁ : dispatchLedger l sc me c = .ok (p₁, c₁))
    (h₂ : dispatchLedger l sc me c₁ = .ok (p₂, c₂)) :
    c₁.worldViewProjection.alloc = c.worldViewProjection.alloc ∧
    c₂.worldViewProjection.alloc = c.worldViewProjection.alloc ∧
    c₁.worldViewProjection.data = me.worldMatrix.mul sc.transformMatrix ∧
    c₂.worldViewProjection.data = me.worldMatrix.mul sc.transformMatrix := by
  have ht : touchesWorldViewProjection l = true := by
    unfold touchesWorldViewProjection
    rw [List.any_eq_true]
    exact ⟨(key, e), hmem, by simp [hk]⟩
  have e₁ := dispatchLedger_ok_snd h₁
  have e₂ := dispatchLedger_ok_snd h₂
  have w₁ : c₁.worldViewProjection =
      ⟨c.worldViewProjection.alloc, me.worldMatrix.mul sc.transformMatrix⟩ := by
    rw [e₁, cacheAfter_worldViewProjection, ht]
    simp
  have w₂ : c₂.worldViewProjection =
      ⟨c₁.worldViewProjection.alloc, me.worldMatrix.mul sc.transformMatrix⟩ := by
    rw [e₂, cacheAfter_worldViewProjection, ht]
    simp
  refine ⟨?_, ?_, ?_, ?_⟩ <;> simp [w₁, w₂]

/-- Witness for C5: two consecutive dispatches of a single world view
projection entry over the sample scene, starting from the cache allocated
at construction, keep the storage identity one and hold the product of the
world matrix and the combined transform. -/
theorem wvp_cache_reuse_witness :
    cAfterWvp.worldViewProjection.alloc = (freshCache 0).worldViewProjection.alloc ∧
    cAfterWvp.worldViewProjection.alloc = (freshCache 0).worldViewProjection.alloc ∧
    cAfterWvp.worldViewProjection.data = sampleMesh.worldMatrix.mul sampleScene.transformMatrix ∧
    cAfterWvp.worldViewProjection.data = sampleMesh.worldMatrix.mul sampleScene.transformMatrix :=
  wvp_cache_reuse [("wvp", wvpEntry)] sampleScene sampleMesh (freshCache 0) "wvp" wvpEntry
    (by decide) (by decide) pWvp cAfterWvp pWvp cAfterWvp
    (by simp [dispatchLedger, resolveEntry, resolveSystemValue, multiplyToRef, MatData.mul,
      MatData.identity, sampleScene, sampleMesh, wvpEntry, freshCache, cAfterWvp, pWvp])
    (by simp [dispatchLedger, resolveEntry, resolveSystemValue, multiplyToRef, MatData.mul,
      MatData.identity, sampleScene, sampleMesh, wvpEntry, freshCache, cAfterWvp, pWvp])

/-- C8: dispatch is a deterministic function of the ledger, the object and
the scene state: the resolved values do not depend on the previous cache
contents, and running the same dispatch again right away returns the same
resolved values and the same cache, so having run before changes nothing. -/
theorem dispatch_deterministic (l : UniformLedger) (sc : Scene) (me : AbstractMesh)
    (c c' : DerivedValueCache) :
    (dispatchLedger l sc me c).map Prod.fst = (dispatchLedger l sc me c').map Prod.fst ∧
    (∀ p c₁, dispatchLedger l sc me c = .ok (p, c₁) →
      dispatchLedger l sc me c₁ = .ok (p, c₁)) := by
  refine ⟨dispatchLedger_fst_indep sc me l c c', ?_⟩
  intro p c₁ h
  have hfst := dispatchLedger_fst_indep sc me l c c₁
  cases h2 : dispatchLedger l sc me c₁ with
  | error err => rw [h, h2] at hfst; simp [Except.map] at hfst
  | ok r =>
      obtain ⟨p₂, c₂⟩ := r
      rw [h, h2] at hfst
      simp only [Except.map, Except.ok.injEq] at hfst
      have hc₁ : c₁ = cacheAfter sc me l c := dispatchLedger_ok_snd h
      have hc₂ : c₂ = cacheAfter sc me l c₁ := dispatchLedger_ok_snd h2
      rw [hc₁] at hc₂
      rw [cacheAfter_idem] at hc₂
      rw [← hfst, hc₂, ← hc₁]

/-- Witness for C8: a second dispatch of the two entry sample ledger from
the cache the first dispatch left returns the same pushes and the same
cache. -/
theorem dispatch_deterministic_witness :
    dispatchLedger pairLedger sampleScene sampleMesh cAfterWvp = .ok (pPair, cAfterWvp) :=
  (dispatch_deterministic pairLedger sampleScene sampleMesh (freshCache 0) (freshCache 0)).2
    pPair cAfterWvp
    (by simp [dispatchLedger, resolveEntry, resolveSystemValue, multiplyToRef, MatData.mul,
      MatData.identity, sampleScene, sampleMesh, wvpEntry, viewEntry, pairLedger,
      freshCache, cAfterWvp, pPair])

/-- C10: dispose leaves the uniform ledger untouched: for every helper
state, the ledger after dispose is exactly the ledger before. -/
theorem dispose_preserves_ledger (s : HelperState) :
    (dispose s).uniformLedger = s.uniformLedger := rfl

end NodeMaterialReplay
